import Mathlib

/-!
Shallow embedding of src/task_manager.py (task-manager-cli).

The Python runtime values are modelled as follows: task field values follow
the wire semantics of the backing document (spec section 6: id integer,
completed boolean, title/description/priority/timestamps strings,
completed_at string-or-null); the runtime object identity (Python id(self))
and the current timestamp (datetime.now().isoformat()) are threaded as
explicit parameters, since the code reads them; the backing JSON document is
an explicit JSON value; Python exceptions are an error type on Except.
-/

set_option autoImplicit false

namespace TaskManagerCli

/-- Python exceptions that the translated code can raise: KeyError from a
missing dict key in Task.from_dict, TypeError from indexing a non-dict
value (as in iterating a JSON document that is not a list of objects). -/
inductive PyError where
  | keyError
  | typeError
deriving DecidableEq

/-- One task, line 13-23 of task_manager.py: fields id, title, description,
priority, completed, created_at, completed_at. completed_at is None or an
ISO timestamp string. -/
structure Task where
  id : Int
  title : String
  description : String
  priority : String
  completed : Bool
  created_at : String
  completed_at : Option String
deriving DecidableEq

/-- Task.__init__ (lines 16-23). task_id models the optional task_id
argument, objId models the runtime object identity id(self), now models
datetime.now().isoformat(). The source line 17 is
"self.id = task_id if task_id else id(self)": a falsy task_id (None or 0)
is replaced by the object identity. -/
def Task.init (title : String) (description : String) (priority : String)
    (task_id : Option Int) (objId : Int) (now : String) : Task :=
  { id := match task_id with
      | some v => if v = 0 then objId else v
      | none => objId
    title := title
    description := description
    priority := priority
    completed := false
    created_at := now
    completed_at := none }

/-- Task.mark_complete (lines 25-28): sets completed and stamps
completed_at with the current time. -/
def Task.mark_complete (now : String) (t : Task) : Task :=
  { t with completed := true, completed_at := some now }

/-- Task.mark_incomplete (lines 30-33): clears completed and completed_at. -/
def Task.mark_incomplete (t : Task) : Task :=
  { t with completed := false, completed_at := none }

/-- A Python dict holding (a subset of) the seven task fields, each key
optionally present, values at their wire types. An absent key is none.
For completed_at, a key present with JSON null is identified with an absent
key, because data.get of either yields Python None in from_dict. -/
structure TaskRecord where
  id : Option Int := none
  title : Option String := none
  description : Option String := none
  priority : Option String := none
  completed : Option Bool := none
  created_at : Option String := none
  completed_at : Option String := none
deriving DecidableEq

/-- Task.to_dict (lines 35-45): every key is written; completed_at carries
the task's completed_at (null when none). -/
def Task.to_dict (t : Task) : TaskRecord :=
  { id := some t.id
    title := some t.title
    description := some t.description
    priority := some t.priority
    completed := some t.completed
    created_at := some t.created_at
    completed_at := t.completed_at }

/-- Task.from_dict (lines 47-59). data is subscripted for title and id
(KeyError when absent) and read with data.get and a default for the rest;
the constructed task then has completed, created_at and completed_at
overwritten from the record. objId and now are the object identity and
current time of the constructed task object. -/
def Task.from_dict (data : TaskRecord) (objId : Int) (now : String) :
    Except PyError Task :=
  match data.title with
  | none => .error .keyError
  | some title =>
    match data.id with
    | none => .error .keyError
    | some task_id =>
      let t := Task.init title (data.description.getD "")
        (data.priority.getD "medium") (some task_id) objId now
      .ok { t with
        completed := data.completed.getD false
        created_at := data.created_at.getD now
        completed_at := data.completed_at }

/-- JSON values, the contents of the backing document once json.load has
parsed it. -/
inductive JValue where
  | null
  | bool (b : Bool)
  | int (n : Int)
  | str (s : String)
  | arr (items : List JValue)
  | obj (fields : List (String × JValue))

/-- Dict lookup on a parsed JSON object: first binding of the key. -/
def jGet (fields : List (String × JValue)) (key : String) : Option JValue :=
  match fields.find? (fun p => p.1 == key) with
  | some p => some p.2
  | none => none

/-- Reads an optional int-valued field. A present field whose value is not
an integer is outside the wire semantics of spec section 6 and is modelled
as TypeError (the Python code would carry such a value opaquely; no claim
concerns that case). -/
def getIntField : Option JValue → Except PyError (Option Int)
  | none => .ok none
  | some (.int n) => .ok (some n)
  | some _ => .error .typeError

/-- Reads an optional string-valued field; same modelling note as
getIntField for values outside the wire semantics. -/
def getStrField : Option JValue → Except PyError (Option String)
  | none => .ok none
  | some (.str s) => .ok (some s)
  | some _ => .error .typeError

/-- Reads an optional bool-valued field; same modelling note as
getIntField for values outside the wire semantics. -/
def getBoolField : Option JValue → Except PyError (Option Bool)
  | none => .ok none
  | some (.bool b) => .ok (some b)
  | some _ => .error .typeError

/-- Reads an optional string-or-null field (completed_at): JSON null and an
absent key both become none, as both give Python None under data.get. -/
def getNullableStrField : Option JValue → Except PyError (Option String)
  | none => .ok none
  | some .null => .ok none
  | some (.str s) => .ok (some s)
  | some _ => .error .typeError

/-- Turns one parsed JSON element into a Python dict of task fields.
A non-object element gives TypeError, exactly as Python raises TypeError
when from_dict subscripts a non-dict value. -/
def jsonDecodeRecord : JValue → Except PyError TaskRecord
  | .obj fields =>
    match getIntField (jGet fields "id") with
    | .error e => .error e
    | .ok idv =>
      match getStrField (jGet fields "title") with
      | .error e => .error e
      | .ok titlev =>
        match getStrField (jGet fields "description") with
        | .error e => .error e
        | .ok descv =>
          match getStrField (jGet fields "priority") with
          | .error e => .error e
          | .ok priov =>
            match getBoolField (jGet fields "completed") with
            | .error e => .error e
            | .ok compv =>
              match getStrField (jGet fields "created_at") with
              | .error e => .error e
              | .ok cav =>
                match getNullableStrField (jGet fields "completed_at") with
                | .error e => .error e
                | .ok compav =>
                  .ok { id := idv, title := titlev, description := descv,
                        priority := priov, completed := compv,
                        created_at := cav, completed_at := compav }
  | _ => .error .typeError

/-- Task.from_dict applied to one parsed JSON element, as in the list
comprehension of load_tasks (line 120). -/
def Task.from_json (v : JValue) (objId : Int) (now : String) :
    Except PyError Task :=
  match jsonDecodeRecord v with
  | .ok r => Task.from_dict r objId now
  | .error e => .error e

/-- JSON rendering of task.to_dict as json.dump writes it (lines 108-112):
all seven keys present, completed_at written as null when none. -/
def Task.to_json (t : Task) : JValue :=
  .obj [("id", .int t.id), ("title", .str t.title),
        ("description", .str t.description), ("priority", .str t.priority),
        ("completed", .bool t.completed), ("created_at", .str t.created_at),
        ("completed_at", match t.completed_at with
          | some s => .str s
          | none => .null)]

/-- The document save_tasks writes: the JSON array of to_dict of every task
in order (line 110). -/
def save_doc (tasks : List Task) : JValue :=
  .arr (tasks.map Task.to_json)

/-- The observable state of a TaskManager: the in-memory task list and the
current contents of the backing document. -/
structure StoreState where
  tasks : List Task
  doc : JValue

/-- TaskManager.save_tasks (lines 108-112): overwrites the backing document
with the serialized task list. -/
def TaskManager.save_tasks (s : StoreState) : StoreState :=
  { s with doc := save_doc s.tasks }

/-- TaskManager.add_task (lines 75-80): constructs a Task with no explicit
task_id (the id becomes the object identity objId), appends it, saves, and
returns it. -/
def TaskManager.add_task (title : String) (description : String)
    (priority : String) (objId : Int) (now : String) (s : StoreState) :
    StoreState × Task :=
  let task := Task.init title description priority none objId now
  let s2 := TaskManager.save_tasks { s with tasks := s.tasks ++ [task] }
  (s2, task)

/-- The loop of remove_task (lines 84-89): delete the first task with the
given id, or return none when no task matches. -/
def removeFirst (task_id : Int) : List Task → Option (List Task)
  | [] => none
  | t :: rest =>
    if t.id = task_id then some rest
    else match removeFirst task_id rest with
      | some rest2 => some (t :: rest2)
      | none => none

/-- TaskManager.remove_task (lines 82-89): removes the first task with a
matching id and saves, returning true; when no task matches it returns
false without touching the list or the document. -/
def TaskManager.remove_task (task_id : Int) (s : StoreState) :
    StoreState × Bool :=
  match removeFirst task_id s.tasks with
  | some tasks => (TaskManager.save_tasks { s with tasks := tasks }, true)
  | none => (s, false)

/-- TaskManager.get_task (lines 91-96): first task with matching id. -/
def TaskManager.get_task (task_id : Int) (s : StoreState) :
    StoreState × Option Task :=
  (s, s.tasks.find? (fun t => t.id == task_id))

/-- TaskManager.list_tasks (lines 98-102): the whole list, or the
incomplete tasks when show_completed is false. -/
def TaskManager.list_tasks (show_completed : Bool) (s : StoreState) :
    StoreState × List Task :=
  (s, if show_completed then s.tasks
      else s.tasks.filter (fun t => !t.completed))

/-- Python str.lower, lowercasing character by character (the ASCII case
mapping, which coincides with Python on the ASCII priority tags). -/
def pyLower (s : String) : String := String.mk (s.data.map Char.toLower)

/-- TaskManager.list_by_priority (lines 104-106): case-insensitive exact
match on the priority field. -/
def TaskManager.list_by_priority (priority : String) (s : StoreState) :
    StoreState × List Task :=
  (s, s.tasks.filter (fun t => pyLower t.priority == pyLower priority))

/-- First task with the given id replaced by g of it, the rest unchanged:
the effect of mutating the object returned by get_task in place. -/
def updateFirst (task_id : Int) (g : Task → Task) : List Task → List Task
  | [] => []
  | t :: rest =>
    if t.id = task_id then g t :: rest
    else t :: updateFirst task_id g rest

/-- SetCompletion as the menu loop performs it (lines 180-204): get_task,
then mark_complete or mark_incomplete on the found object followed by
save_tasks; returns whether the task was found. -/
def TaskManager.set_completion (task_id : Int) (c : Bool) (now : String)
    (s : StoreState) : StoreState × Bool :=
  match s.tasks.find? (fun t => t.id == task_id) with
  | some _ =>
    let tasks := updateFirst task_id
      (fun t => if c then t.mark_complete now else t.mark_incomplete) s.tasks
    (TaskManager.save_tasks { s with tasks := tasks }, true)
  | none => (s, false)

/-- The condition of load_tasks: the backing file may be absent, present
but rejected by json.load (JSONDecodeError), or parsed to a JSON value. -/
inductive DocState where
  | absent
  | unreadable
  | parsed (v : JValue)

/-- Outcome of load_tasks: a task list together with whether the warning
of line 122 was printed, or an uncaught (unrecovered) exception. -/
inductive LoadResult where
  | loaded (tasks : List Task) (warned : Bool)
  | crash (e : PyError)
deriving DecidableEq

/-- The list comprehension of line 120: Task.from_dict on each element in
order, the first exception propagating. f gives the object identity of the
k-th constructed task. -/
def decodeItems (f : Nat → Int) (now : String) :
    List JValue → Except PyError (List Task)
  | [] => .ok []
  | v :: rest =>
    match Task.from_json v (f 0) now with
    | .error e => .error e
    | .ok t =>
      match decodeItems (fun n => f (n + 1)) now rest with
      | .error e => .error e
      | .ok ts => .ok (t :: ts)

/-- TaskManager.load_tasks (lines 114-123). An absent file leaves the list
empty (no error). The except clause catches exactly JSONDecodeError and
KeyError, printing a warning and resetting to the empty list; any other
exception (in particular the TypeError from iterating or subscripting a
parsed document that is not a list of dicts) escapes uncaught. A parsed
non-list document is iterated by the comprehension: a dict yields its keys
and a string its characters (TypeError inside from_dict unless empty), and
null, a number or a boolean is not iterable at all (TypeError). -/
def TaskManager.load_tasks (d : DocState) (f : Nat → Int) (now : String) :
    LoadResult :=
  match d with
  | .absent => .loaded [] false
  | .unreadable => .loaded [] true
  | .parsed v =>
    match v with
    | .arr items =>
      match decodeItems f now items with
      | .ok ts => .loaded ts false
      | .error .keyError => .loaded [] true
      | .error .typeError => .crash .typeError
    | .obj fields => if fields.isEmpty then .loaded [] false
        else .crash .typeError
    | .str s => if s.isEmpty then .loaded [] false else .crash .typeError
    | _ => .crash .typeError

/-- C7: ListAll(false) is exactly the order-preserving subsequence of the
store's tasks with completed false, and ListAll(true) is the whole store
sequence in store order. -/
theorem list_tasks_returns_pending_subsequence (s : StoreState) :
    (TaskManager.list_tasks true s).2 = s.tasks ∧
    (TaskManager.list_tasks false s).2
      = s.tasks.filter (fun t => !t.completed) ∧
    ((TaskManager.list_tasks false s).2).Sublist s.tasks ∧
    (∀ t, t ∈ (TaskManager.list_tasks false s).2 ↔
      t ∈ s.tasks ∧ t.completed = false) := by
  refine ⟨rfl, rfl, List.filter_sublist _, ?_⟩
  intro t
  simp [TaskManager.list_tasks, List.mem_filter]

/-- C8: ListByPriority is the order-preserving subsequence of tasks whose
priority matches the argument case-insensitively; in the concrete scenario
Add A low, Add B high, ListByPriority HIGH yields only B. -/
theorem list_by_priority_case_insensitive (s : StoreState) (priority : String) :
    (TaskManager.list_by_priority priority s).2
      = s.tasks.filter (fun t => pyLower t.priority == pyLower priority) ∧
    ((TaskManager.list_by_priority priority s).2).Sublist s.tasks ∧
    (∀ t, t ∈ (TaskManager.list_by_priority priority s).2 ↔
      t ∈ s.tasks ∧ pyLower t.priority = pyLower priority) ∧
    ((TaskManager.list_by_priority "HIGH"
        (TaskManager.add_task "B" "" "high" 2 "T1"
          (TaskManager.add_task "A" "" "low" 1 "T0"
            { tasks := [], doc := .arr [] }).1).1).2.map Task.title
      = ["B"]) := by
  refine ⟨rfl, List.filter_sublist _, ?_, by decide⟩
  intro t
  simp [TaskManager.list_by_priority, List.mem_filter]

/-- C10: the read operations get_task, list_tasks and list_by_priority
leave the store state (task sequence and backing document) unchanged and
perform no save. -/
theorem read_ops_leave_store_unchanged (s : StoreState) (task_id : Int)
    (b : Bool) (priority : String) :
    (TaskManager.get_task task_id s).1 = s ∧
    (TaskManager.list_tasks b s).1 = s ∧
    (TaskManager.list_by_priority priority s).1 = s :=
  ⟨rfl, rfl, rfl⟩

/-- C5: from_dict raises KeyError exactly when the title or id key is
absent, raises nothing else, and fills every other absent field with its
default: empty description, medium priority, not completed, null
completed_at, and the current timestamp for created_at. -/
theorem from_dict_missing_fields_and_defaults (data : TaskRecord)
    (objId : Int) (now : String) :
    ((∃ e, Task.from_dict data objId now = .error e) ↔
      (data.title = none ∨ data.id = none)) ∧
    (∀ e, Task.from_dict data objId now = .error e → e = .keyError) ∧
    (∀ t, Task.from_dict data objId now = .ok t →
      (data.description = none → t.description = "") ∧
      (data.priority = none → t.priority = "medium") ∧
      (data.completed = none → t.completed = false) ∧
      (data.completed_at = none → t.completed_at = none) ∧
      (data.created_at = none → t.created_at = now)) := by
  rcases data with ⟨did, dtitle, ddesc, dprio, dcomp, dca, dcompa⟩
  cases dtitle <;> cases did <;> simp [Task.from_dict, Task.init]
  refine ⟨fun h => ?_, fun h => ?_, fun h => ?_, fun h => ?_⟩ <;> subst h <;> rfl

/-- C9: a falsy supplied id is replaced by the runtime object identity:
constructing with task_id 0 or deserializing a record whose id field is 0
yields a task whose id is the object identity, so a nonzero object
identity means the value 0 is never preserved as an id. -/
theorem zero_id_replaced_by_object_identity (title description priority : String)
    (data : TaskRecord) (objId : Int) (now : String)
    (hid : data.id = some 0) (htitle : ∃ s0, data.title = some s0) :
    (Task.init title description priority (some 0) objId now).id = objId ∧
    (Task.from_dict data objId now).map Task.id = .ok objId ∧
    (objId ≠ 0 → (Task.from_dict data objId now).map Task.id ≠ .ok 0) := by
  obtain ⟨s0, ht⟩ := htitle
  rcases data with ⟨did, dtitle, ddesc, dprio, dcomp, dca, dcompa⟩
  simp only [TaskRecord.id] at hid
  simp only [TaskRecord.title] at ht
  subst hid
  subst ht
  refine ⟨by simp [Task.init], ?_, ?_⟩
  · simp [Task.from_dict, Task.init, Except.map]
  · intro hne
    simp [Task.from_dict, Task.init, Except.map]
    exact fun h => hne h

/-- Witness for C9: at object identity 7 and a record with id 0 and title
present, the constructed and deserialized ids are 7. -/
theorem zero_id_replaced_by_object_identity_witness :
    (Task.init "t" "" "medium" (some 0) 7 "T").id = 7 ∧
    (Task.from_dict { id := some 0, title := some "t" } 7 "T").map Task.id
      = .ok 7 := by
  have h := zero_id_replaced_by_object_identity "t" "" "medium"
    { id := some 0, title := some "t" } 7 "T" rfl ⟨"t", rfl⟩
  exact ⟨h.1, h.2.1⟩

/-- The completion invariant of a single task: completed is true exactly
when completed_at is non-null. -/
def completionInvariant (t : Task) : Prop :=
  t.completed = true ↔ t.completed_at ≠ none

/-- A record is completion-consistent when its completed flag (defaulted
to false) agrees with the presence of its completed_at value. Records
produced by to_dict from a task satisfying the invariant are such. -/
def recordCompletionConsistent (data : TaskRecord) : Prop :=
  data.completed.getD false = true ↔ data.completed_at ≠ none

/-- C2 counterexample: deserializing the record with id 1, title t,
completed true and no completed_at yields a task with completed true and
completed_at null, so the invariant does not hold after from_dict on an
arbitrary record. -/
theorem from_dict_breaks_completion_invariant :
    (Task.from_dict { id := some 1, title := some "t", completed := some true }
        5 "T").map (fun t => (t.completed, t.completed_at))
      = .ok (true, none) := rfl

/-- C2 amended: the completion invariant holds after construction, after
mark_complete and after mark_incomplete; to_dict of an invariant task is a
completion-consistent record, and from_dict preserves the invariant on
completion-consistent records (in particular on any record to_dict wrote).
It does not hold after from_dict of an inconsistent record. -/
theorem completion_invariant_at_observable_points
    (title description priority : String) (task_id : Option Int)
    (objId : Int) (now : String) (t : Task) (data : TaskRecord) :
    completionInvariant (Task.init title description priority task_id objId now) ∧
    completionInvariant (Task.mark_complete now t) ∧
    completionInvariant (Task.mark_incomplete t) ∧
    (completionInvariant t → recordCompletionConsistent (Task.to_dict t)) ∧
    (recordCompletionConsistent data →
      ∀ u, Task.from_dict data objId now = .ok u → completionInvariant u) := by
  refine ⟨?_, ?_, ?_, ?_, ?_⟩
  · simp [completionInvariant, Task.init]
  · simp [completionInvariant, Task.mark_complete]
  · simp [completionInvariant, Task.mark_incomplete]
  · intro h
    simpa [recordCompletionConsistent, Task.to_dict, completionInvariant] using h
  · intro hc u hu
    rcases data with ⟨did, dtitle, ddesc, dprio, dcomp, dca, dcompa⟩
    simp [recordCompletionConsistent] at hc
    cases dtitle <;> cases did <;> simp [Task.from_dict, Task.init] at hu
    subst hu
    simpa [completionInvariant] using hc

/-- Decoding the JSON rendering of a task recovers exactly the dict that
to_dict wrote. -/
theorem jsonDecodeRecord_to_json (t : Task) :
    jsonDecodeRecord (Task.to_json t) = .ok (Task.to_dict t) := by
  rcases t with ⟨tid, ttitle, tdesc, tprio, tcomp, tca, tcompa⟩
  cases tcompa <;> rfl

/-- from_dict undoes to_dict field for field, provided the task id is not
the falsy integer 0 (line 17 would replace a 0 id by the object identity). -/
theorem from_dict_to_dict (t : Task) (objId : Int) (now : String)
    (h : t.id ≠ 0) :
    Task.from_dict (Task.to_dict t) objId now = .ok t := by
  simp [Task.to_dict, Task.from_dict, Task.init, h]

/-- from_json undoes to_json for tasks with nonzero id. -/
theorem from_json_to_json (t : Task) (objId : Int) (now : String)
    (h : t.id ≠ 0) :
    Task.from_json (Task.to_json t) objId now = .ok t := by
  simp [Task.from_json, jsonDecodeRecord_to_json, from_dict_to_dict t objId now h]

/-- The load comprehension recovers a serialized task list whose ids are
all nonzero. -/
theorem decodeItems_map_to_json (tasks : List Task) (f : Nat → Int)
    (now : String) (h : ∀ t ∈ tasks, t.id ≠ 0) :
    decodeItems f now (tasks.map Task.to_json) = .ok tasks := by
  induction tasks generalizing f with
  | nil => rfl
  | cons t ts ih =>
    have h1 := from_json_to_json t (f 0) now (h t (List.mem_cons_self t ts))
    have h2 := ih (fun n => f (n + 1)) (fun u hu => h u (List.mem_cons_of_mem t hu))
    simp [decodeItems, h1, h2]

/-- C1 amended: for any task list in which every id is nonzero (truthy),
loading the document written by save reproduces the same tasks in the same
order with identical values in every field, and no warning is printed. -/
theorem save_load_round_trip (tasks : List Task) (f : Nat → Int)
    (now : String) (h : ∀ t ∈ tasks, t.id ≠ 0) :
    TaskManager.load_tasks (.parsed (save_doc tasks)) f now
      = .loaded tasks false := by
  simp [TaskManager.load_tasks, save_doc, decodeItems_map_to_json tasks f now h]

/-- A concrete task with every field populated, used to witness the
round-trip. -/
def sampleTask : Task :=
  { id := 3, title := "a", description := "d", priority := "high",
    completed := true, created_at := "2020-01-01T00:00:00",
    completed_at := some "2020-01-02T00:00:00" }

/-- Witness for C1 amended: the singleton list holding sampleTask has a
nonzero id and round-trips through the backing document. -/
theorem save_load_round_trip_witness :
    (∀ t ∈ [sampleTask], t.id ≠ 0) ∧
    TaskManager.load_tasks (.parsed (save_doc [sampleTask])) (fun _ => 9) "T"
      = .loaded [sampleTask] false :=
  ⟨by decide, save_load_round_trip [sampleTask] (fun _ => 9) "T" (by decide)⟩

/-- A task whose id is the falsy integer 0. -/
def zeroIdTask : Task :=
  { id := 0, title := "t", description := "", priority := "medium",
    completed := false, created_at := "T0", completed_at := none }

/-- C1 counterexample: a task with id 0 (an integer, hence a valid field
value) does not round-trip: loading the saved document replaces its id by
the fresh object identity 999. -/
theorem round_trip_fails_at_zero_id :
    TaskManager.load_tasks (.parsed (save_doc [zeroIdTask])) (fun _ => 999) "T"
      ≠ .loaded [zeroIdTask] false ∧
    TaskManager.load_tasks (.parsed (save_doc [zeroIdTask])) (fun _ => 999) "T"
      = .loaded [{ zeroIdTask with id := 999 }] false :=
  ⟨by decide, rfl⟩

/-- When the loop of remove_task removes something, the list splits at the
first task carrying the id, and the result is the rest in order. -/
theorem removeFirst_some_spec (task_id : Int) (l l2 : List Task)
    (h : removeFirst task_id l = some l2) :
    ∃ pre t0 post, l = pre ++ t0 :: post ∧ t0.id = task_id ∧
      (∀ u ∈ pre, u.id ≠ task_id) ∧ l2 = pre ++ post := by
  induction l generalizing l2 with
  | nil => simp [removeFirst] at h
  | cons t rest ih =>
    simp only [removeFirst] at h
    by_cases ht : t.id = task_id
    · rw [if_pos ht] at h
      exact ⟨[], t, rest, by simp, ht, by simp,
        by simp [(Option.some.inj h).symm]⟩
    · rw [if_neg ht] at h
      cases hrec : removeFirst task_id rest with
      | none =>
        rw [hrec] at h
        exact Option.noConfusion h
      | some l3 =>
        rw [hrec] at h
        obtain ⟨pre, t0, post, hl, hid, hpre, hl2⟩ := ih l3 hrec
        refine ⟨t :: pre, t0, post, by simp [hl], hid, ?_, ?_⟩
        · intro u hu
          rcases List.mem_cons.mp hu with rfl | hu2
          · exact ht
          · exact hpre u hu2
        · have hcons : t :: l3 = l2 := Option.some.inj h
          simp [← hcons, hl2]

/-- The loop of remove_task finds nothing exactly when no task carries the
id. -/
theorem removeFirst_eq_none_iff (task_id : Int) (l : List Task) :
    removeFirst task_id l = none ↔ ∀ t ∈ l, t.id ≠ task_id := by
  induction l with
  | nil => simp [removeFirst]
  | cons t rest ih =>
    simp only [removeFirst]
    by_cases ht : t.id = task_id
    · rw [if_pos ht]
      simp [ht]
    · rw [if_neg ht]
      cases hrec : removeFirst task_id rest with
      | none =>
        simp [ht]
        exact ih.mp hrec
      | some l3 =>
        simp [ht]
        obtain ⟨pre, t0, post, hl, hid, _, _⟩ :=
          removeFirst_some_spec task_id rest l3 hrec
        exact ⟨t0, by simp [hl], hid⟩

/-- C6: remove_task returns true exactly when a task carries the id, in
which case it deletes the first such task, keeps every other task in
relative order, and writes the new sequence to the backing document; when
no task matches, the store and the document are untouched. -/
theorem remove_task_first_match (s : StoreState) (task_id : Int) :
    ((TaskManager.remove_task task_id s).2 = true ↔
      ∃ t ∈ s.tasks, t.id = task_id) ∧
    ((TaskManager.remove_task task_id s).2 = false →
      (TaskManager.remove_task task_id s).1 = s) ∧
    ((TaskManager.remove_task task_id s).2 = true →
      ∃ pre t0 post, s.tasks = pre ++ t0 :: post ∧ t0.id = task_id ∧
        (∀ u ∈ pre, u.id ≠ task_id) ∧
        (TaskManager.remove_task task_id s).1.tasks = pre ++ post ∧
        (TaskManager.remove_task task_id s).1.doc = save_doc (pre ++ post)) := by
  cases hrec : removeFirst task_id s.tasks with
  | none =>
    have hall := (removeFirst_eq_none_iff task_id s.tasks).mp hrec
    have h2 : TaskManager.remove_task task_id s = (s, false) := by
      unfold TaskManager.remove_task
      rw [hrec]
    rw [h2]
    refine ⟨?_, fun _ => rfl, ?_⟩
    · constructor
      · intro hft
        exact absurd hft (by simp)
      · rintro ⟨t, htmem, hid⟩
        exact absurd hid (hall t htmem)
    · intro hft
      exact absurd hft (by simp)
  | some l2 =>
    obtain ⟨pre, t0, post, hl, hid, hpre, hl2⟩ :=
      removeFirst_some_spec task_id s.tasks l2 hrec
    have h2 : TaskManager.remove_task task_id s
        = (TaskManager.save_tasks { s with tasks := l2 }, true) := by
      unfold TaskManager.remove_task
      rw [hrec]
    rw [h2]
    refine ⟨⟨fun _ => ⟨t0, by simp [hl], hid⟩, fun _ => rfl⟩, ?_, ?_⟩
    · intro hft
      exact absurd hft (by simp)
    · intro _
      refine ⟨pre, t0, post, hl, hid, hpre, ?_, ?_⟩ <;>
        simp [TaskManager.save_tasks, hl2]

/-- One operation of a run against the store, carrying the inputs the code
reads from the environment: the object identity of a newly constructed
task and the current time. -/
inductive Op where
  | add (title : String) (description : String) (priority : String)
      (objId : Int) (now : String)
  | remove (task_id : Int)
  | setComp (task_id : Int) (c : Bool) (now : String)

/-- The state transition of one operation (return values discarded). -/
def applyOp : Op → StoreState → StoreState
  | .add title description priority objId now, s =>
    (TaskManager.add_task title description priority objId now s).1
  | .remove task_id, s => (TaskManager.remove_task task_id s).1
  | .setComp task_id c now, s =>
    (TaskManager.set_completion task_id c now s).1

/-- Runs a sequence of operations left to right. -/
def runOps (s : StoreState) : List Op → StoreState
  | [] => s
  | op :: rest => runOps (applyOp op s) rest

/-- The ids of the tasks currently held by the store, in store order. -/
def storeIds (s : StoreState) : List Int := s.tasks.map Task.id

/-- The CPython liveness guarantee on object identities: id(self) of a new
task differs from the identity of every currently live object, here the
tasks still held by the store (whose ids are their identities when the
store was populated by add_task). Identities of deleted tasks may recur. -/
def validTrace (s : StoreState) : List Op → Bool
  | [] => true
  | op :: rest =>
    (match op with
     | .add _ _ _ objId _ => !(storeIds s).contains objId
     | _ => true) && validTrace (applyOp op s) rest

/-- add_task appends exactly one task whose id is the object identity. -/
theorem storeIds_applyOp_add (title description priority : String)
    (objId : Int) (now : String) (s : StoreState) :
    storeIds (applyOp (.add title description priority objId now) s)
      = storeIds s ++ [objId] := by
  simp [applyOp, TaskManager.add_task, TaskManager.save_tasks, storeIds,
    Task.init]

/-- updateFirst never changes ids when its update function keeps them. -/
theorem updateFirst_map_id (task_id : Int) (g : Task → Task)
    (hg : ∀ t, (g t).id = t.id) (l : List Task) :
    (updateFirst task_id g l).map Task.id = l.map Task.id := by
  induction l with
  | nil => rfl
  | cons t rest ih =>
    simp only [updateFirst]
    by_cases ht : t.id = task_id
    · rw [if_pos ht]
      simp [hg]
    · rw [if_neg ht]
      simp [ih]

/-- set_completion leaves the id sequence unchanged. -/
theorem storeIds_applyOp_setComp (task_id : Int) (c : Bool) (now : String)
    (s : StoreState) :
    storeIds (applyOp (.setComp task_id c now) s) = storeIds s := by
  simp only [applyOp, TaskManager.set_completion]
  cases s.tasks.find? (fun t => t.id == task_id) with
  | none => rfl
  | some t =>
    simp only [TaskManager.save_tasks, storeIds]
    exact updateFirst_map_id task_id _
      (fun u => by cases c <;> rfl) s.tasks

/-- remove_task leaves the surviving ids a subsequence of the old ones. -/
theorem storeIds_applyOp_remove (task_id : Int) (s : StoreState) :
    (storeIds (applyOp (.remove task_id) s)).Sublist (storeIds s) := by
  simp only [applyOp, TaskManager.remove_task]
  cases hrec : removeFirst task_id s.tasks with
  | none => simp [storeIds]
  | some l2 =>
    obtain ⟨pre, t0, post, hl, _, _, hl2⟩ :=
      removeFirst_some_spec task_id s.tasks l2 hrec
    simp only [TaskManager.save_tasks, storeIds, hl, hl2]
    exact ((List.sublist_cons_self t0 post).append_left pre).map Task.id

/-- Along a trace respecting object-identity liveness, distinct ids stay
distinct. -/
theorem nodup_runOps (ops : List Op) : ∀ s : StoreState,
    validTrace s ops = true → (storeIds s).Nodup →
    (storeIds (runOps s ops)).Nodup := by
  induction ops with
  | nil => exact fun s _ h => h
  | cons op rest ih =>
    intro s hv hnd
    cases op with
    | add title description priority objId now =>
      have hv2 : (!(storeIds s).contains objId
          && validTrace (applyOp (.add title description priority objId now) s)
            rest) = true := hv
      rw [Bool.and_eq_true] at hv2
      refine ih _ hv2.2 ?_
      rw [storeIds_applyOp_add]
      have hfresh : objId ∉ storeIds s := by
        have h1 := hv2.1
        simp [List.contains] at h1
        exact h1
      exact List.Nodup.append hnd (List.nodup_singleton objId)
        (by simpa [List.disjoint_singleton] using hfresh)
    | remove task_id =>
      have hv2 : (true
          && validTrace (applyOp (.remove task_id) s) rest) = true := hv
      rw [Bool.and_eq_true] at hv2
      exact ih _ hv2.2 ((storeIds_applyOp_remove task_id s).nodup hnd)
    | setComp task_id c now =>
      have hv2 : (true
          && validTrace (applyOp (.setComp task_id c now) s) rest) = true := hv
      rw [Bool.and_eq_true] at hv2
      refine ih _ hv2.2 ?_
      rw [storeIds_applyOp_setComp]
      exact hnd

/-- C4 amended: along any run of Add, Remove and SetCompletion in which
every Add receives an object identity distinct from the live tasks' ids
(the CPython guarantee), no two tasks in the store ever share an id;
SetCompletion never alters any id and Remove only deletes ids. The
original claim's further clause, that an id is never reused by a later Add
once its task is deleted, is refuted by id_reused_after_delete: the
runtime may hand the identity of a freed object to a new one. -/
theorem ids_unique_and_stable (s : StoreState) (ops : List Op)
    (hv : validTrace s ops = true) (hnd : (storeIds s).Nodup) :
    (storeIds (runOps s ops)).Nodup ∧
    (∀ task_id c now s2,
      storeIds (applyOp (.setComp task_id c now) s2) = storeIds s2) ∧
    (∀ task_id s2,
      (storeIds (applyOp (.remove task_id) s2)).Sublist (storeIds s2)) :=
  ⟨nodup_runOps ops s hv hnd,
   fun task_id c now s2 => storeIds_applyOp_setComp task_id c now s2,
   fun task_id s2 => storeIds_applyOp_remove task_id s2⟩

/-- The store at process start: no tasks, empty document array. -/
def store0 : StoreState := { tasks := [], doc := .arr [] }

/-- A run that adds a task (its object identity, hence id, is 100),
removes it, and adds another task which the runtime places at the freed
identity 100 again — allowed by liveness, since no live task holds 100 at
that point. -/
def reuseOps : List Op :=
  [.add "a" "" "medium" 100 "T0", .remove 100, .add "b" "" "medium" 100 "T1"]

/-- C4 counterexample: on the run reuseOps, valid for the liveness model,
the id 100 is assigned to the task titled a, that task is deleted, and a
later Add assigns the same id 100 to the distinct task titled b — so an id
is reused after deletion within one run. -/
theorem id_reused_after_delete :
    validTrace store0 reuseOps = true ∧
    storeIds (runOps store0 (reuseOps.take 1)) = [100] ∧
    (runOps store0 (reuseOps.take 1)).tasks.map Task.title = ["a"] ∧
    storeIds (runOps store0 (reuseOps.take 2)) = [] ∧
    storeIds (runOps store0 reuseOps) = [100] ∧
    (runOps store0 reuseOps).tasks.map Task.title = ["b"] :=
  ⟨rfl, rfl, rfl, rfl, rfl, rfl⟩

/-- A concrete valid run exercising add, remove and setComp. -/
def witnessOps : List Op :=
  [.add "a" "" "low" 1 "T", .add "b" "" "high" 2 "T",
   .remove 1, .setComp 2 true "T2"]

/-- Witness for C4 amended: the run witnessOps is valid from the empty
store, whose ids are trivially distinct, and the final ids are distinct. -/
theorem ids_unique_and_stable_witness :
    validTrace store0 witnessOps = true ∧ (storeIds store0).Nodup ∧
    (storeIds (runOps store0 witnessOps)).Nodup :=
  ⟨rfl, List.nodup_nil,
   (ids_unique_and_stable store0 witnessOps rfl List.nodup_nil).1⟩

/-- Whether a fallible field read succeeded. -/
def exceptIsOk {α : Type} : Except PyError α → Bool
  | .ok _ => true
  | .error _ => false

/-- A successful read carries a value. -/
theorem exceptIsOk_exists {α : Type} {e : Except PyError α}
    (h : exceptIsOk e = true) : ∃ x, e = .ok x := by
  cases e with
  | ok x => exact ⟨x, rfl⟩
  | error e2 => exact absurd h (by simp [exceptIsOk])

/-- The parsed element is a record object whose present fields all carry
values of their wire types (spec section 6); any subset of fields may be
absent. -/
def wellTypedRecordJson : JValue → Bool
  | .obj fields =>
    exceptIsOk (getIntField (jGet fields "id"))
    && exceptIsOk (getStrField (jGet fields "title"))
    && exceptIsOk (getStrField (jGet fields "description"))
    && exceptIsOk (getStrField (jGet fields "priority"))
    && exceptIsOk (getBoolField (jGet fields "completed"))
    && exceptIsOk (getStrField (jGet fields "created_at"))
    && exceptIsOk (getNullableStrField (jGet fields "completed_at"))
  | _ => false

/-- The parsed element is a record object lacking at least one of the two
required keys, title or id. -/
def jsonMissingRequired : JValue → Bool
  | .obj fields => (jGet fields "title").isNone || (jGet fields "id").isNone
  | _ => false

/-- Decoding a well-typed record object always succeeds, and the decoded
required fields are absent exactly when their keys are. -/
theorem jsonDecodeRecord_ok_of_wellTyped (fields : List (String × JValue))
    (h : wellTypedRecordJson (.obj fields) = true) :
    ∃ r, jsonDecodeRecord (.obj fields) = .ok r ∧
      (jGet fields "title" = none → r.title = none) ∧
      (jGet fields "id" = none → r.id = none) := by
  simp only [wellTypedRecordJson, Bool.and_eq_true] at h
  obtain ⟨⟨⟨⟨⟨⟨h1, h2⟩, h3⟩, h4⟩, h5⟩, h6⟩, h7⟩ := h
  obtain ⟨idv, hid⟩ := exceptIsOk_exists h1
  obtain ⟨titlev, htitle⟩ := exceptIsOk_exists h2
  obtain ⟨descv, hdesc⟩ := exceptIsOk_exists h3
  obtain ⟨priov, hprio⟩ := exceptIsOk_exists h4
  obtain ⟨compv, hcomp⟩ := exceptIsOk_exists h5
  obtain ⟨cav, hca⟩ := exceptIsOk_exists h6
  obtain ⟨compav, hcompa⟩ := exceptIsOk_exists h7
  refine ⟨⟨idv, titlev, descv, priov, compv, cav, compav⟩, ?_, ?_, ?_⟩
  · simp [jsonDecodeRecord, hid, htitle, hdesc, hprio, hcomp, hca, hcompa]
  · intro hnone
    rw [hnone] at htitle
    simp only [getStrField] at htitle
    exact (Except.ok.inj htitle).symm
  · intro hnone
    rw [hnone] at hid
    simp only [getIntField] at hid
    exact (Except.ok.inj hid).symm

/-- from_dict either succeeds or raises KeyError; no other exception can
leave it. -/
theorem from_dict_ok_or_keyError (data : TaskRecord) (objId : Int)
    (now : String) :
    (∃ t, Task.from_dict data objId now = .ok t) ∨
      Task.from_dict data objId now = .error .keyError := by
  rcases data with ⟨did, dtitle, ddesc, dprio, dcomp, dca, dcompa⟩
  cases dtitle <;> cases did <;> simp [Task.from_dict]

/-- from_dict raises KeyError when the record lacks title or id. -/
theorem from_dict_keyError_of_missing (data : TaskRecord) (objId : Int)
    (now : String) (h : data.title = none ∨ data.id = none) :
    Task.from_dict data objId now = .error .keyError := by
  rcases data with ⟨did, dtitle, ddesc, dprio, dcomp, dca, dcompa⟩
  cases dtitle <;> cases did <;> simp_all [Task.from_dict]

/-- On a well-typed record object, from_dict of the parsed element either
yields a task or raises KeyError. -/
theorem from_json_of_wellTyped (v : JValue) (objId : Int) (now : String)
    (h : wellTypedRecordJson v = true) :
    (∃ t, Task.from_json v objId now = .ok t) ∨
      Task.from_json v objId now = .error .keyError := by
  cases v with
  | obj fields =>
    obtain ⟨r, hr, -, -⟩ := jsonDecodeRecord_ok_of_wellTyped fields h
    rw [Task.from_json, hr]
    exact from_dict_ok_or_keyError r objId now
  | null => exact absurd h (by simp [wellTypedRecordJson])
  | bool b => exact absurd h (by simp [wellTypedRecordJson])
  | int n => exact absurd h (by simp [wellTypedRecordJson])
  | str s => exact absurd h (by simp [wellTypedRecordJson])
  | arr items => exact absurd h (by simp [wellTypedRecordJson])

/-- On a well-typed record object missing a required key, from_dict of the
parsed element raises KeyError. -/
theorem from_json_keyError_of_missing (v : JValue) (objId : Int)
    (now : String) (hw : wellTypedRecordJson v = true)
    (hm : jsonMissingRequired v = true) :
    Task.from_json v objId now = .error .keyError := by
  cases v with
  | obj fields =>
    obtain ⟨r, hr, ht, hi⟩ := jsonDecodeRecord_ok_of_wellTyped fields hw
    rw [Task.from_json, hr]
    simp only [jsonMissingRequired, Bool.or_eq_true, Option.isNone_iff_eq_none]
      at hm
    refine from_dict_keyError_of_missing r objId now ?_
    rcases hm with hm | hm
    · exact Or.inl (ht hm)
    · exact Or.inr (hi hm)
  | null => exact absurd hw (by simp [wellTypedRecordJson])
  | bool b => exact absurd hw (by simp [wellTypedRecordJson])
  | int n => exact absurd hw (by simp [wellTypedRecordJson])
  | str s => exact absurd hw (by simp [wellTypedRecordJson])
  | arr items => exact absurd hw (by simp [wellTypedRecordJson])

/-- The load comprehension over well-typed record objects either yields a
task list or raises KeyError. -/
theorem decodeItems_ok_or_keyError (items : List JValue) :
    ∀ f : Nat → Int, ∀ now : String,
    (∀ v ∈ items, wellTypedRecordJson v = true) →
    (∃ ts, decodeItems f now items = .ok ts) ∨
      decodeItems f now items = .error .keyError := by
  induction items with
  | nil => exact fun f now _ => Or.inl ⟨[], rfl⟩
  | cons v rest ih =>
    intro f now hw
    rcases from_json_of_wellTyped v (f 0) now (hw v (by simp)) with ⟨t, ht⟩ | ht
    · rcases ih (fun n => f (n + 1)) now (fun u hu => hw u (by simp [hu]))
        with ⟨ts, hts⟩ | hts
      · exact Or.inl ⟨t :: ts, by simp [decodeItems, ht, hts]⟩
      · exact Or.inr (by simp [decodeItems, ht, hts])
    · exact Or.inr (by simp [decodeItems, ht])

/-- The load comprehension raises KeyError when some well-typed record
object lacks a required key. -/
theorem decodeItems_keyError_of_missing (items : List JValue) :
    ∀ f : Nat → Int, ∀ now : String,
    (∀ v ∈ items, wellTypedRecordJson v = true) →
    (∃ v ∈ items, jsonMissingRequired v = true) →
    decodeItems f now items = .error .keyError := by
  induction items with
  | nil =>
    rintro f now _ ⟨v, hv, -⟩
    exact absurd hv (by simp)
  | cons v rest ih =>
    rintro f now hw ⟨u, hu, hmu⟩
    rcases List.mem_cons.mp hu with rfl | hu2
    · simp [decodeItems,
        from_json_keyError_of_missing u (f 0) now (hw u (by simp)) hmu]
    · rcases from_json_of_wellTyped v (f 0) now (hw v (by simp))
        with ⟨t, ht⟩ | ht
      · have hrest := ih (fun n => f (n + 1)) now
          (fun w hw2 => hw w (by simp [hw2])) ⟨u, hu2, hmu⟩
        simp [decodeItems, ht, hrest]
      · simp [decodeItems, ht]

/-- C3 counterexample: two documents that are valid JSON but not arrays of
record objects — the scalar 5 and the array holding the number 1 — make
load raise an uncaught TypeError instead of failing softly: the except
clause of line 121 catches only JSONDecodeError and KeyError. -/
theorem load_crashes_on_unexpected_shape :
    TaskManager.load_tasks (.parsed (.int 5)) (fun _ => 9) "T"
      = .crash .typeError ∧
    TaskManager.load_tasks (.parsed (.arr [.int 1])) (fun _ => 9) "T"
      = .crash .typeError :=
  ⟨rfl, rfl⟩

/-- C3 amended: load fails softly — it always yields a store and never an
unrecovered error — whenever the document is absent, fails to parse as
JSON, or parses as an array of record objects whose present fields carry
their wire types; an unparseable document, and one with a record missing
the required title or id, surface the diagnostic and leave the store
empty. A parsed document of any other shape instead raises an uncaught
TypeError, as load_crashes_on_unexpected_shape shows. -/
theorem load_soft_fails_within_wire_format (d : DocState) (f : Nat → Int)
    (now : String)
    (h : d = .absent ∨ d = .unreadable ∨
      ∃ items, d = .parsed (.arr items) ∧
        ∀ v ∈ items, wellTypedRecordJson v = true) :
    (∃ ts w, TaskManager.load_tasks d f now = .loaded ts w) ∧
    (d = .unreadable → TaskManager.load_tasks d f now = .loaded [] true) ∧
    (∀ items, d = .parsed (.arr items) →
      (∀ v ∈ items, wellTypedRecordJson v = true) →
      (∃ v ∈ items, jsonMissingRequired v = true) →
      TaskManager.load_tasks d f now = .loaded [] true) := by
  rcases h with rfl | rfl | ⟨items, rfl, hw⟩
  · exact ⟨⟨[], false, rfl⟩, fun heq => DocState.noConfusion heq,
      fun items heq _ _ => DocState.noConfusion heq⟩
  · exact ⟨⟨[], true, rfl⟩, fun _ => rfl,
      fun items heq _ _ => DocState.noConfusion heq⟩
  · refine ⟨?_, fun heq => DocState.noConfusion heq, ?_⟩
    · rcases decodeItems_ok_or_keyError items f now hw with ⟨ts, hts⟩ | hts
      · exact ⟨ts, false, by simp [TaskManager.load_tasks, hts]⟩
      · exact ⟨[], true, by simp [TaskManager.load_tasks, hts]⟩
    · intro items2 heq hw2 hm
      have harr : (JValue.arr items) = .arr items2 := by
        injection heq
      have hsame : items = items2 := by
        injection harr
      subst hsame
      simp [TaskManager.load_tasks,
        decodeItems_keyError_of_missing items f now hw hm]

/-- Witness for C3 amended: a parsed array holding one well-typed record
object that lacks both required keys loads softly as the empty store with
the diagnostic. -/
theorem load_soft_fails_witness :
    wellTypedRecordJson (.obj [("completed", .bool true)]) = true ∧
    jsonMissingRequired (.obj [("completed", .bool true)]) = true ∧
    TaskManager.load_tasks
        (.parsed (.arr [.obj [("completed", .bool true)]])) (fun _ => 9) "T"
      = .loaded [] true := by
  refine ⟨rfl, rfl, ?_⟩
  have h := load_soft_fails_within_wire_format
    (.parsed (.arr [.obj [("completed", .bool true)]])) (fun _ => 9) "T"
    (Or.inr (Or.inr ⟨[.obj [("completed", .bool true)]], rfl, by
      intro v hv
      simp at hv
      subst hv
      rfl⟩))
  refine h.2.2 [.obj [("completed", .bool true)]] rfl ?_ ?_
  · intro v hv
    simp at hv
    subst hv
    rfl
  · exact ⟨.obj [("completed", .bool true)], by simp, rfl⟩

end TaskManagerCli
